import Mathlib

/-
Verification of the aircraft-tracker record store.

Shallow embedding of the core of the repository:
  src/models/aircraft.py        (the Aircraft record type and its validators)
  src/storage/json_storage.py   (JSON-backed store)
  src/storage/csv_storage.py    (CSV-backed store)
  src/utils/validators.py       (standalone validators)

Modelling conventions:
  - Python floats are modelled as rationals.
  - A Python value fed to a validator is modelled by the PyVal sum type.
  - Fallible Python code (code that can raise) returns Except PyError;
    an Except.error result models an exception propagating out of a method.
  - The backing file is explicit state: a sum type distinguishing a missing
    file, unparseable content, and parsed rows; a writable flag models
    whether writes succeed (an unwritable file models IOError on save).
  - Numeric text in a CSV cell is modelled by NumStr: either text that
    float() parses to a rational, or junk text that float() rejects.
-/

namespace AircraftTracker

/-- A dynamically typed Python value passed to the record validators. -/
inductive PyVal where
  | str (s : String)
  | num (q : ℚ)
  | bool (b : Bool)
  | none
deriving DecidableEq

/-- Value of a nonempty run of decimal digits, most significant first. -/
def digitsToNat (cs : List Char) : ℕ :=
  cs.foldl (fun n c => 10 * n + (c.toNat - 48)) 0

/-- Model of Python str.strip(): drop whitespace from both ends. (Structural
on the character list, unlike String.trim, so that proofs can evaluate it.) -/
def pyStrip (s : String) : String :=
  String.mk (((s.toList.dropWhile Char.isWhitespace).reverse.dropWhile
    Char.isWhitespace).reverse)

/-- Model of Python str.lower(); the program only lowercases the ASCII
booleans True and False. -/
def pyLower (s : String) : String :=
  String.mk (s.toList.map Char.toLower)

/-- Parse an unsigned decimal literal, as accepted by Python float():
digits, digits.digits, digits., or .digits. -/
def parseUnsignedFloat? (cs : List Char) : Option ℚ :=
  match cs.span (fun c => !(c = '.')) with
  | (intPart, []) =>
    if intPart.isEmpty || !(intPart.all Char.isDigit) then Option.none
    else Option.some (digitsToNat intPart)
  | (intPart, _ :: fracPart) =>
    if (intPart.isEmpty && fracPart.isEmpty) || !(intPart.all Char.isDigit)
        || !(fracPart.all Char.isDigit) then Option.none
    else Option.some ((digitsToNat intPart : ℚ)
        + (digitsToNat fracPart : ℚ) / 10 ^ fracPart.length)

/-- Model of Python float(s) on a string: leading/trailing whitespace is
stripped, an optional sign precedes a plain decimal literal. (Exotic float
syntax such as exponents, inf or nan is outside the behaviours exercised
here: the program only feeds float() its own fixed-point output or junk.) -/
def parseFloat? (s : String) : Option ℚ :=
  match (pyStrip s).toList with
  | '+' :: rest => parseUnsignedFloat? rest
  | '-' :: rest => (parseUnsignedFloat? rest).map (fun q => -q)
  | cs => parseUnsignedFloat? cs

/-- Model of Python float(value): the Option.none result models a raised
TypeError or ValueError. float(bool) yields 0.0 or 1.0. -/
def pyFloat : PyVal → Option ℚ
  | PyVal.str s => parseFloat? s
  | PyVal.num q => Option.some q
  | PyVal.bool b => Option.some (if b then 1 else 0)
  | PyVal.none => Option.none

/-- Aircraft._validate_callsign (aircraft.py lines 95-99):
`if not value or not isinstance(value, str): return "Unknown"` then
`return value.strip()`. A string is falsy exactly when it is empty. -/
def validateCallsign : PyVal → String
  | PyVal.str s => if s = "" then "Unknown" else pyStrip s
  | _ => "Unknown"

/-- Aircraft._validate_country (aircraft.py lines 101-105): same shape. -/
def validateCountry : PyVal → String
  | PyVal.str s => if s = "" then "Unknown" else pyStrip s
  | _ => "Unknown"

/-- Aircraft._validate_velocity (aircraft.py lines 107-113):
`max(0.0, float(value))`, with TypeError/ValueError degrading to 0.0. -/
def validateVelocity (v : PyVal) : ℚ :=
  match pyFloat v with
  | Option.some q => max 0 q
  | Option.none => 0

/-- Aircraft._validate_altitude (aircraft.py lines 115-123):
`max(-1000.0, float(value))`, with TypeError/ValueError degrading to 0.0. -/
def validateAltitude (v : PyVal) : ℚ :=
  match pyFloat v with
  | Option.some q => max (-1000) q
  | Option.none => 0

/-- The nine fields of an Aircraft object (aircraft.py lines 10-51). -/
structure Aircraft where
  callsign : String
  origin_country : String
  velocity : ℚ
  altitude : ℚ
  icao24 : String
  longitude : ℚ
  latitude : ℚ
  on_ground : Bool
  vertical_rate : ℚ
deriving DecidableEq

/-- Aircraft.__init__ (aircraft.py lines 22-51): the four positional fields
run through their validators; the keyword fields are stored untouched (the
store always supplies them already at their proper type). -/
def Aircraft.init (callsign origin_country velocity altitude : PyVal)
    (icao24 : String) (longitude latitude : ℚ)
    (on_ground : Bool) (vertical_rate : ℚ) : Aircraft :=
  { callsign := validateCallsign callsign
    origin_country := validateCountry origin_country
    velocity := validateVelocity velocity
    altitude := validateAltitude altitude
    icao24 := icao24
    longitude := longitude
    latitude := latitude
    on_ground := on_ground
    vertical_rate := vertical_rate }

/-- The flat mapping produced by Aircraft.to_dict and consumed by
Aircraft.from_dict, with each value at its native type. Mappings written by
the store carry exactly these nine keys, so the mapping is modelled as a
structure. -/
structure AircraftDict where
  callsign : String
  origin_country : String
  velocity : ℚ
  altitude : ℚ
  icao24 : String
  longitude : ℚ
  latitude : ℚ
  on_ground : Bool
  vertical_rate : ℚ
deriving DecidableEq

/-- Aircraft.to_dict (aircraft.py lines 210-224). -/
def Aircraft.to_dict (a : Aircraft) : AircraftDict :=
  { callsign := a.callsign
    origin_country := a.origin_country
    velocity := a.velocity
    altitude := a.altitude
    icao24 := a.icao24
    longitude := a.longitude
    latitude := a.latitude
    on_ground := a.on_ground
    vertical_rate := a.vertical_rate }

/-- Aircraft.from_dict (aircraft.py lines 180-198): every key is present in
a store-written mapping, so each data.get falls into its found branch; the
constructor then revalidates the four positional fields. -/
def Aircraft.from_dict (d : AircraftDict) : Aircraft :=
  Aircraft.init (PyVal.str d.callsign) (PyVal.str d.origin_country)
    (PyVal.num d.velocity) (PyVal.num d.altitude)
    d.icao24 d.longitude d.latitude d.on_ground d.vertical_rate

/-- A record satisfying the documented construction invariants: trimmed
nonempty identifier strings, velocity at least 0, altitude at least -1000. -/
def Aircraft.Valid (a : Aircraft) : Prop :=
  a.callsign ≠ "" ∧ pyStrip a.callsign = a.callsign ∧
  a.origin_country ≠ "" ∧ pyStrip a.origin_country = a.origin_country ∧
  0 ≤ a.velocity ∧ -1000 ≤ a.altitude

instance (a : Aircraft) : Decidable a.Valid := by
  unfold Aircraft.Valid; infer_instance

namespace Validators

/-- validators.validate_altitude (validators.py lines 19-31):
`-1000 <= float(altitude) <= 50000`, false on TypeError/ValueError. -/
def validate_altitude (v : PyVal) : Bool :=
  match pyFloat v with
  | Option.some q => decide (-1000 ≤ q ∧ q ≤ 50000)
  | Option.none => false

end Validators

/-- A Python exception escaping a method. float() on junk raises ValueError. -/
inductive PyError where
  | valueError
deriving DecidableEq

instance {e a : Type} [DecidableEq e] [DecidableEq a] : DecidableEq (Except e a) := fun x y =>
  match x, y with
  | Except.ok u, Except.ok v =>
    if h : u = v then Decidable.isTrue (by rw [h])
    else Decidable.isFalse (fun hc => h (Except.ok.injEq u v ▸ hc))
  | Except.ok _, Except.error _ => Decidable.isFalse (fun hc => Except.noConfusion hc)
  | Except.error _, Except.ok _ => Decidable.isFalse (fun hc => Except.noConfusion hc)
  | Except.error u, Except.error v =>
    if h : u = v then Decidable.isTrue (by rw [h])
    else Decidable.isFalse (fun hc => h (Except.error.injEq u v ▸ hc))

/-- A criteria entry: one key of the criteria mapping together with the
caller's typed value for it (the nine queryable fields). -/
inductive Criterion where
  | callsign (v : String)
  | origin_country (v : String)
  | icao24 (v : String)
  | velocity (v : ℚ)
  | altitude (v : ℚ)
  | longitude (v : ℚ)
  | latitude (v : ℚ)
  | vertical_rate (v : ℚ)
  | on_ground (v : Bool)
deriving DecidableEq

/-- State of the JSON backing file: missing, content json.load rejects
(JSONDecodeError), or a parsed top-level array of record mappings. -/
inductive JsonFile where
  | missing
  | malformed
  | wellFormed (rows : List AircraftDict)
deriving DecidableEq

/-- A JSON store: the backing file plus whether writes to it succeed. -/
structure JsonState where
  file : JsonFile
  writable : Bool
deriving DecidableEq

namespace JSONStorage

/-- JSONStorage._load_data (json_storage.py lines 33-44): json.load of the
file; JSONDecodeError and FileNotFoundError are caught and yield []. -/
def load_data (st : JsonState) : List AircraftDict :=
  match st.file with
  | JsonFile.wellFormed rows => rows
  | _ => []

/-- JSONStorage._save_data (json_storage.py lines 46-59): rewrites the whole
file; IOError is caught, prints, and returns False with the file unchanged. -/
def save_data (rows : List AircraftDict) (st : JsonState) : Bool × JsonState :=
  if st.writable then
    (true, { file := JsonFile.wellFormed rows, writable := st.writable })
  else
    (false, st)

/-- The scan loop of JSONStorage.add_aircraft (json_storage.py lines 72-79):
the first mapping whose callsign equals cs receives existing.update(d);
since d carries all nine keys and a store-written mapping has exactly those
nine keys, the update replaces the whole mapping; if no mapping matches, d
is appended. -/
def upsertFirst (d : AircraftDict) (cs : String) : List AircraftDict → List AircraftDict
  | [] => [d]
  | x :: xs => if x.callsign = cs then d :: xs else x :: upsertFirst d cs xs

/-- JSONStorage.add_aircraft (json_storage.py lines 61-80). -/
def add_aircraft (a : Aircraft) (st : JsonState) : Bool × JsonState :=
  save_data (upsertFirst a.to_dict a.callsign (load_data st)) st

/-- The loop of JSONStorage.add_multiple_aircraft (json_storage.py lines
92-105): each aircraft rescans the working list, updating the first match
in place or appending, and added_count is incremented in both branches. -/
def addLoop : List Aircraft → List AircraftDict → ℕ → List AircraftDict × ℕ
  | [], data, c => (data, c)
  | a :: rest, data, c => addLoop rest (upsertFirst a.to_dict a.callsign data) (c + 1)

/-- JSONStorage.add_multiple_aircraft (json_storage.py lines 82-108): the
final _save_data result is discarded; the loop count is returned. -/
def add_multiple_aircraft (l : List Aircraft) (st : JsonState) : ℕ × JsonState :=
  let r := addLoop l (load_data st) 0
  (r.2, (save_data r.1 st).2)

/-- One criteria entry checked against a stored mapping (the body of the
inner loop of json_storage.py lines 127-130): every key is present in a
store-written mapping, so `key not in item` is always false and the check
is `item[key] == value` at the native type. -/
def criterionHolds (c : Criterion) (d : AircraftDict) : Bool :=
  match c with
  | Criterion.callsign v => d.callsign = v
  | Criterion.origin_country v => d.origin_country = v
  | Criterion.icao24 v => d.icao24 = v
  | Criterion.velocity v => d.velocity = v
  | Criterion.altitude v => d.altitude = v
  | Criterion.longitude v => d.longitude = v
  | Criterion.latitude v => d.latitude = v
  | Criterion.vertical_rate v => d.vertical_rate = v
  | Criterion.on_ground v => d.on_ground = v

/-- The criteria loop (json_storage.py lines 126-130): match stays true
exactly when every criteria entry holds (break on first failure). -/
def matchesAll (cs : List Criterion) (d : AircraftDict) : Bool :=
  cs.all (fun c => criterionHolds c d)

/-- JSONStorage.get_aircraft (json_storage.py lines 110-134): `if not
criteria` is true for both None and an empty mapping;
Aircraft.cast_to_object_list maps from_dict over the mappings. -/
def get_aircraft (criteria : Option (List Criterion)) (st : JsonState) : List Aircraft :=
  let data := load_data st
  match criteria with
  | Option.none => data.map Aircraft.from_dict
  | Option.some cs =>
    if cs.isEmpty then data.map Aircraft.from_dict
    else (data.filter (fun d => matchesAll cs d)).map Aircraft.from_dict

/-- JSONStorage.delete_aircraft (json_storage.py lines 157-172): keeps the
mappings whose callsign differs, saves when anything was dropped (returning
the save result), else returns False with the state untouched. -/
def delete_aircraft (cs : String) (st : JsonState) : Bool × JsonState :=
  let data := load_data st
  let newData := data.filter (fun d => !(d.callsign = cs))
  if newData.length < data.length then save_data newData st
  else (false, st)

/-- JSONStorage.get_all (json_storage.py lines 174-176). -/
def get_all (st : JsonState) : List Aircraft :=
  (load_data st).map Aircraft.from_dict

/-- JSONStorage.clear (json_storage.py lines 178-180). -/
def clear (st : JsonState) : Bool × JsonState :=
  save_data [] st

/-- JSONStorage.count (json_storage.py lines 182-184). -/
def count (st : JsonState) : ℕ :=
  (load_data st).length

end JSONStorage

/-- Text in a numeric CSV cell: either text that float() parses to the
rational q (the store itself only ever writes such canonical fixed-point
text, which is never empty), or junk text that float() rejects with
ValueError (the empty cell "" is falsy junk). -/
inductive NumStr where
  | ofRat (q : ℚ)
  | junk (s : String)
deriving DecidableEq

/-- Truthiness of the cell text, for `if row_value` and `any(row.values())`. -/
def NumStr.truthy : NumStr → Bool
  | NumStr.ofRat _ => true
  | NumStr.junk s => !(s = "")

/-- float() on the cell text. -/
def NumStr.toFloat : NumStr → Except PyError ℚ
  | NumStr.ofRat q => Except.ok q
  | NumStr.junk _ => Except.error PyError.valueError

/-- Whether float() on the cell text succeeds. -/
def NumStr.parses : NumStr → Bool
  | NumStr.ofRat _ => true
  | NumStr.junk _ => false

/-- One data row of the CSV file under the standard nine-column header:
every cell is text; numeric columns are modelled by NumStr. -/
structure CsvRow where
  callsign : String
  origin_country : String
  velocity : NumStr
  altitude : NumStr
  icao24 : String
  longitude : NumStr
  latitude : NumStr
  on_ground : String
  vertical_rate : NumStr
deriving DecidableEq

/-- State of the CSV backing file: missing (FileNotFoundError on open),
content the csv reader rejects (csv.Error), or the parsed data rows. -/
inductive CsvFile where
  | missing
  | unreadable
  | table (rows : List CsvRow)
deriving DecidableEq

/-- A CSV store: the backing file plus whether writes to it succeed. -/
structure CsvState where
  file : CsvFile
  writable : Bool
deriving DecidableEq

/-- Python's str(bool): the literal text True or False. -/
def pyStrBool (b : Bool) : String :=
  if b then "True" else "False"

/-- Rational idealization of fixed-point formatting with k decimal places
(the f-string format .kf): round to the nearest multiple of 10^(-k). (At
exact half-ulp ties Python rounds to even; no behaviour settled here sits
on a tie.) -/
def roundToPlaces (k : ℕ) (q : ℚ) : ℚ :=
  ((round (q * 10 ^ k) : ℤ) : ℚ) / 10 ^ k

namespace CSVStorage

/-- CSVStorage._aircraft_to_row (csv_storage.py lines 60-80): velocity,
altitude and vertical_rate are written with 2 decimals, longitude and
latitude with 6, on_ground as str(bool). -/
def aircraft_to_row (a : Aircraft) : CsvRow :=
  { callsign := a.callsign
    origin_country := a.origin_country
    velocity := NumStr.ofRat (roundToPlaces 2 a.velocity)
    altitude := NumStr.ofRat (roundToPlaces 2 a.altitude)
    icao24 := a.icao24
    longitude := NumStr.ofRat (roundToPlaces 6 a.longitude)
    latitude := NumStr.ofRat (roundToPlaces 6 a.latitude)
    on_ground := pyStrBool a.on_ground
    vertical_rate := NumStr.ofRat (roundToPlaces 2 a.vertical_rate) }

/-- CSVStorage._row_to_aircraft (csv_storage.py lines 82-103): the float()
coercions run in argument order and the first junk cell raises ValueError
out of the method; on_ground is `row value .lower() == 'true'`. -/
def row_to_aircraft (row : CsvRow) : Except PyError Aircraft := do
  let v ← row.velocity.toFloat
  let alt ← row.altitude.toFloat
  let lon ← row.longitude.toFloat
  let lat ← row.latitude.toFloat
  let vr ← row.vertical_rate.toFloat
  pure (Aircraft.init (PyVal.str row.callsign) (PyVal.str row.origin_country)
    (PyVal.num v) (PyVal.num alt)
    row.icao24 lon lat (pyLower row.on_ground = "true") vr)

/-- `any(row.values())` (csv_storage.py line 118): at least one cell text is
nonempty. -/
def rowTruthy (r : CsvRow) : Bool :=
  !(r.callsign = "") || !(r.origin_country = "") || r.velocity.truthy
    || r.altitude.truthy || !(r.icao24 = "") || r.longitude.truthy
    || r.latitude.truthy || !(r.on_ground = "") || r.vertical_rate.truthy

/-- CSVStorage._load_data (csv_storage.py lines 105-126): rows whose cells
are all empty are skipped; FileNotFoundError and csv.Error are caught and
yield []. -/
def load_data (st : CsvState) : List CsvRow :=
  match st.file with
  | CsvFile.table rows => rows.filter rowTruthy
  | _ => []

/-- CSVStorage._save_data (csv_storage.py lines 128-156): rewrites the whole
file (header plus rows); IOError is caught and returns False with the file
unchanged. -/
def save_data (rows : List CsvRow) (st : CsvState) : Bool × CsvState :=
  if st.writable then
    (true, { file := CsvFile.table rows, writable := st.writable })
  else
    (false, st)

/-- The indexed scan loop of CSVStorage.add_aircraft (csv_storage.py lines
172-184): the first row whose callsign equals cs is overwritten with the
new row (data[i] = new_row), else the new row is appended. -/
def upsertRow (newRow : CsvRow) (cs : String) : List CsvRow → List CsvRow
  | [] => [newRow]
  | r :: rest => if r.callsign = cs then newRow :: rest else r :: upsertRow newRow cs rest

/-- CSVStorage.add_aircraft (csv_storage.py lines 158-187). -/
def add_aircraft (a : Aircraft) (st : CsvState) : Bool × CsvState :=
  save_data (upsertRow (aircraft_to_row a) a.callsign (load_data st)) st

/-- The dict comprehension building existing_dict (csv_storage.py line 206),
as a lookup function: a later row with the same callsign overwrites an
earlier entry, so lookup prefers the later occurrence; k is the index of
the first row of the sublist. -/
def buildIndexFrom (k : ℕ) : List CsvRow → String → Option ℕ
  | [], _ => Option.none
  | r :: rest, cs =>
    match buildIndexFrom (k + 1) rest cs with
    | Option.some i => Option.some i
    | Option.none => if cs = r.callsign then Option.some k else Option.none

/-- existing_dict for the whole data list. -/
def buildIndex (rows : List CsvRow) : String → Option ℕ :=
  buildIndexFrom 0 rows

/-- The loop of CSVStorage.add_multiple_aircraft (csv_storage.py lines
208-219): a callsign found in the index overwrites that row in place, else
the row is appended and the index gains its position len(data) - 1;
added_count is incremented in both branches. -/
def addManyLoop : List Aircraft → List CsvRow → (String → Option ℕ) → ℕ → List CsvRow × ℕ
  | [], data, _, c => (data, c)
  | a :: rest, data, idx, c =>
    match idx a.callsign with
    | Option.some i => addManyLoop rest (data.set i (aircraft_to_row a)) idx (c + 1)
    | Option.none =>
      addManyLoop rest (data ++ [aircraft_to_row a])
        (fun cs => if cs = a.callsign then Option.some data.length else idx cs) (c + 1)

/-- CSVStorage.add_multiple_aircraft (csv_storage.py lines 189-223): an
empty input returns 0 before any file access; otherwise the loop count is
returned and the final _save_data result is discarded. -/
def add_multiple_aircraft (l : List Aircraft) (st : CsvState) : ℕ × CsvState :=
  if l.isEmpty then (0, st)
  else
    let data := load_data st
    let r := addManyLoop l data (buildIndex data) 0
    (r.2, (save_data r.1 st).2)

/-- Coercion of a numeric cell for criteria comparison (csv_storage.py lines
249-252): `float(row_value) if row_value else 0.0`, with ValueError or
TypeError degrading to 0.0 - junk text therefore compares as 0.0. -/
def coerceNum : NumStr → ℚ
  | NumStr.ofRat q => q
  | NumStr.junk _ => 0

/-- Coercion of the on_ground cell (csv_storage.py line 254):
`row_value.lower() == 'true' if row_value else False`. -/
def coerceBool (s : String) : Bool :=
  if s = "" then false else pyLower s = "true"

/-- One criteria entry checked against a stored row (the body of the inner
loop of csv_storage.py lines 245-258): numeric and boolean keys coerce the
cell text first, string keys compare the text directly. -/
def rowCriterionHolds (c : Criterion) (r : CsvRow) : Bool :=
  match c with
  | Criterion.callsign v => r.callsign = v
  | Criterion.origin_country v => r.origin_country = v
  | Criterion.icao24 v => r.icao24 = v
  | Criterion.velocity v => coerceNum r.velocity = v
  | Criterion.altitude v => coerceNum r.altitude = v
  | Criterion.longitude v => coerceNum r.longitude = v
  | Criterion.latitude v => coerceNum r.latitude = v
  | Criterion.vertical_rate v => coerceNum r.vertical_rate = v
  | Criterion.on_ground v => coerceBool r.on_ground = v

/-- The criteria loop (csv_storage.py lines 243-258). -/
def rowMatchesAll (cs : List Criterion) (r : CsvRow) : Bool :=
  cs.all (fun c => rowCriterionHolds c r)

/-- The filtering loop of CSVStorage.get_aircraft (csv_storage.py lines
242-260): each matching row is converted as it is met, so the first junk
numeric cell of a matching row raises out of the method. -/
def filterRows (cs : List Criterion) : List CsvRow → Except PyError (List Aircraft)
  | [] => pure []
  | r :: rest =>
    if rowMatchesAll cs r then do
      let a ← row_to_aircraft r
      let tl ← filterRows cs rest
      pure (a :: tl)
    else filterRows cs rest

/-- CSVStorage.get_aircraft (csv_storage.py lines 225-262): `if not
criteria` is true for both None and an empty mapping and converts every
row; otherwise the filtering loop runs. -/
def get_aircraft (criteria : Option (List Criterion)) (st : CsvState) :
    Except PyError (List Aircraft) :=
  let data := load_data st
  match criteria with
  | Option.none => data.mapM row_to_aircraft
  | Option.some cs =>
    if cs.isEmpty then data.mapM row_to_aircraft
    else filterRows cs data

/-- CSVStorage.get_all (csv_storage.py lines 310-312). -/
def get_all (st : CsvState) : Except PyError (List Aircraft) :=
  get_aircraft Option.none st

/-- CSVStorage.delete_aircraft (csv_storage.py lines 287-308): keeps the
rows whose callsign differs; when anything was dropped it saves and returns
True regardless of the save result, else returns False. -/
def delete_aircraft (cs : String) (st : CsvState) : Bool × CsvState :=
  let data := load_data st
  let newData := data.filter (fun r => !(r.callsign = cs))
  if newData.length < data.length then (true, (save_data newData st).2)
  else (false, st)

/-- CSVStorage.clear (csv_storage.py lines 314-316). -/
def clear (st : CsvState) : Bool × CsvState :=
  save_data [] st

/-- CSVStorage.count (csv_storage.py lines 318-320). -/
def count (st : CsvState) : ℕ :=
  (load_data st).length

end CSVStorage

/-- A public mutating store operation, as issued by a caller. -/
inductive StoreOp where
  | add (a : Aircraft)
  | addMany (l : List Aircraft)
  | del (cs : String)
  | clear
deriving DecidableEq

/-- Run one operation against the JSON store. -/
def jsonApply (op : StoreOp) (st : JsonState) : JsonState :=
  match op with
  | StoreOp.add a => (JSONStorage.add_aircraft a st).2
  | StoreOp.addMany l => (JSONStorage.add_multiple_aircraft l st).2
  | StoreOp.del cs => (JSONStorage.delete_aircraft cs st).2
  | StoreOp.clear => (JSONStorage.clear st).2

/-- Run one operation against the CSV store. -/
def csvApply (op : StoreOp) (st : CsvState) : CsvState :=
  match op with
  | StoreOp.add a => (CSVStorage.add_aircraft a st).2
  | StoreOp.addMany l => (CSVStorage.add_multiple_aircraft l st).2
  | StoreOp.del cs => (CSVStorage.delete_aircraft cs st).2
  | StoreOp.clear => (CSVStorage.clear st).2

/-- A fresh, writable, empty JSON store (what _ensure_file_exists creates). -/
def emptyJsonState : JsonState :=
  { file := JsonFile.wellFormed [], writable := true }

/-- A fresh, writable, header-only CSV store. -/
def emptyCsvState : CsvState :=
  { file := CsvFile.table [], writable := true }

/-- The JSON store after a sequence of operations from the empty store. -/
def jsonRun (ops : List StoreOp) : JsonState :=
  ops.foldl (fun st op => jsonApply op st) emptyJsonState

/-- The CSV store after a sequence of operations from the empty store. -/
def csvRun (ops : List StoreOp) : CsvState :=
  ops.foldl (fun st op => csvApply op st) emptyCsvState

/-- Every numeric cell of the row carries text float() accepts; rows written
by the store itself always satisfy this. -/
def CsvRow.numOk (r : CsvRow) : Bool :=
  r.velocity.parses && r.altitude.parses && r.longitude.parses
    && r.latitude.parses && r.vertical_rate.parses

/-- Every row of the list survives the empty-row skip of _load_data. -/
def CsvClean (rows : List CsvRow) : Prop :=
  ∀ r ∈ rows, CSVStorage.rowTruthy r = true

/-- The existing_dict lookup only returns positions holding a row with the
looked-up callsign. -/
def IdxSound (rows : List CsvRow) (idx : String → Option ℕ) : Prop :=
  ∀ cs i, idx cs = Option.some i →
    ∃ r, rows[i]? = Option.some r ∧ r.callsign = cs

/-- The existing_dict lookup finds every callsign stored in the list. -/
def IdxComplete (rows : List CsvRow) (idx : String → Option ℕ) : Prop :=
  ∀ r ∈ rows, (idx r.callsign).isSome = true

/-- A concrete record used to instantiate the store theorems. -/
def sampleAircraft : Aircraft :=
  { callsign := "AFL101", origin_country := "Russia", velocity := 250
    altitude := 11000, icao24 := "ab1234", longitude := 37/2, latitude := 55
    on_ground := false, vertical_rate := 0 }

/-- A second concrete record with a different callsign. -/
def sampleAircraft2 : Aircraft :=
  { callsign := "UAL202", origin_country := "USA", velocity := 240
    altitude := 10500, icao24 := "cd5678", longitude := -74, latitude := 40
    on_ground := true, vertical_rate := -2 }

/-- A syntactically well-formed CSV data row whose velocity cell holds
non-numeric text. -/
def junkVelocityRow : CsvRow :=
  { callsign := "JNK001", origin_country := "Russia", velocity := NumStr.junk "abc"
    altitude := NumStr.ofRat 1000, icao24 := "ab1234", longitude := NumStr.ofRat 0
    latitude := NumStr.ofRat 0, on_ground := "True", vertical_rate := NumStr.ofRat 0 }

theorem json_load_save (rows : List AircraftDict) (st : JsonState) :
    JSONStorage.load_data (JSONStorage.save_data rows st).2
      = if st.writable then rows else JSONStorage.load_data st := by
  by_cases h : st.writable <;>
    simp [JSONStorage.save_data, JSONStorage.load_data, h]

theorem csv_load_save (rows : List CsvRow) (st : CsvState) :
    CSVStorage.load_data (CSVStorage.save_data rows st).2
      = if st.writable then rows.filter CSVStorage.rowTruthy
        else CSVStorage.load_data st := by
  by_cases h : st.writable <;>
    simp [CSVStorage.save_data, CSVStorage.load_data, h]

theorem mem_map_upsertFirst {d : AircraftDict} {cs y : String} :
    ∀ {l : List AircraftDict},
      y ∈ (JSONStorage.upsertFirst d cs l).map AircraftDict.callsign →
      y ∈ l.map AircraftDict.callsign ∨ y = d.callsign := by
  intro l
  induction l with
  | nil =>
    intro h
    simp [JSONStorage.upsertFirst] at h
    exact Or.inr h
  | cons x xs ih =>
    intro h
    by_cases hx : x.callsign = cs
    · simp only [JSONStorage.upsertFirst, if_pos hx, List.map_cons,
        List.mem_cons] at h
      rcases h with h | h
      · exact Or.inr h
      · exact Or.inl (by simp [List.mem_cons]; exact Or.inr (by simpa using h))
    · simp only [JSONStorage.upsertFirst, if_neg hx, List.map_cons,
        List.mem_cons] at h
      rcases h with h | h
      · exact Or.inl (by simp [h])
      · rcases ih h with h2 | h2
        · exact Or.inl (by simp [List.mem_cons]; exact Or.inr (by simpa using h2))
        · exact Or.inr h2

theorem nodup_upsertFirst {d : AircraftDict} {k : String} (hd : d.callsign = k) :
    ∀ {l : List AircraftDict}, (l.map AircraftDict.callsign).Nodup →
      ((JSONStorage.upsertFirst d k l).map AircraftDict.callsign).Nodup := by
  intro l
  induction l with
  | nil =>
    intro _
    simp [JSONStorage.upsertFirst]
  | cons x xs ih =>
    intro h
    rw [List.map_cons] at h
    rcases List.nodup_cons.mp h with ⟨hx1, hx2⟩
    by_cases hx : x.callsign = k
    · simp only [JSONStorage.upsertFirst, if_pos hx, List.map_cons]
      refine List.nodup_cons.mpr ⟨?_, hx2⟩
      rw [hd, ← hx]
      exact hx1
    · simp only [JSONStorage.upsertFirst, if_neg hx, List.map_cons]
      refine List.nodup_cons.mpr ⟨?_, ih hx2⟩
      intro hmem
      rcases mem_map_upsertFirst hmem with h2 | h2
      · exact hx1 h2
      · exact hx (h2.trans hd)

theorem upsertFirst_split {d : AircraftDict} {cs : String} :
    ∀ {l : List AircraftDict}, cs ∈ l.map AircraftDict.callsign →
      ∃ l1 x l2, l = l1 ++ x :: l2 ∧ x.callsign = cs ∧
        (∀ y ∈ l1, y.callsign ≠ cs) ∧
        JSONStorage.upsertFirst d cs l = l1 ++ d :: l2 := by
  intro l
  induction l with
  | nil => intro h; simp at h
  | cons x xs ih =>
    intro h
    by_cases hx : x.callsign = cs
    · exact ⟨[], x, xs, by simp, hx, by simp,
        by simp [JSONStorage.upsertFirst, if_pos hx]⟩
    · have hmem : cs ∈ xs.map AircraftDict.callsign := by
        rw [List.map_cons, List.mem_cons] at h
        rcases h with h1 | h1
        · exact absurd h1.symm hx
        · exact h1
      rcases ih hmem with ⟨l1, x0, l2, heq, hx0, hl1, hup⟩
      exact ⟨x :: l1, x0, l2, by simp [heq], hx0,
        by
          intro y hy
          rcases List.mem_cons.mp hy with hy | hy
          · rw [hy]; exact hx
          · exact hl1 y hy,
        by simp [JSONStorage.upsertFirst, if_neg hx, hup]⟩

theorem upsertFirst_not_mem {d : AircraftDict} {cs : String} :
    ∀ {l : List AircraftDict}, cs ∉ l.map AircraftDict.callsign →
      JSONStorage.upsertFirst d cs l = l ++ [d] := by
  intro l
  induction l with
  | nil => intro _; simp [JSONStorage.upsertFirst]
  | cons x xs ih =>
    intro h
    have hx : ¬(x.callsign = cs) := by
      intro hc
      exact h (by simp [hc])
    have hxs : cs ∉ xs.map AircraftDict.callsign := by
      intro hc
      exact h (by simp [hc])
    simp [JSONStorage.upsertFirst, if_neg hx, ih hxs]

theorem upsertFirst_idem {d : AircraftDict} {k : String} (hd : d.callsign = k) :
    ∀ l : List AircraftDict,
      JSONStorage.upsertFirst d k (JSONStorage.upsertFirst d k l)
        = JSONStorage.upsertFirst d k l := by
  intro l
  induction l with
  | nil => simp [JSONStorage.upsertFirst, if_pos hd]
  | cons x xs ih =>
    by_cases hx : x.callsign = k
    · simp [JSONStorage.upsertFirst, if_pos hx, if_pos hd]
    · simp [JSONStorage.upsertFirst, if_neg hx, ih]

theorem mem_upsertRow {newRow : CsvRow} {cs : String} :
    ∀ {l : List CsvRow} {x : CsvRow},
      x ∈ CSVStorage.upsertRow newRow cs l → x ∈ l ∨ x = newRow := by
  intro l
  induction l with
  | nil =>
    intro x h
    simp [CSVStorage.upsertRow] at h
    exact Or.inr h
  | cons r rest ih =>
    intro x h
    by_cases hr : r.callsign = cs
    · simp only [CSVStorage.upsertRow, if_pos hr, List.mem_cons] at h
      rcases h with h | h
      · exact Or.inr h
      · exact Or.inl (by simp [h])
    · simp only [CSVStorage.upsertRow, if_neg hr, List.mem_cons] at h
      rcases h with h | h
      · exact Or.inl (by simp [h])
      · rcases ih h with h2 | h2
        · exact Or.inl (by simp [List.mem_cons]; exact Or.inr h2)
        · exact Or.inr h2

theorem mem_map_upsertRow {newRow : CsvRow} {cs y : String} {l : List CsvRow}
    (h : y ∈ (CSVStorage.upsertRow newRow cs l).map CsvRow.callsign) :
    y ∈ l.map CsvRow.callsign ∨ y = newRow.callsign := by
  rcases List.mem_map.mp h with ⟨x, hx, hxy⟩
  rcases mem_upsertRow hx with h2 | h2
  · exact Or.inl (List.mem_map.mpr ⟨x, h2, hxy⟩)
  · exact Or.inr (by rw [← hxy, h2])

theorem nodup_upsertRow {d : CsvRow} {k : String} (hd : d.callsign = k) :
    ∀ {l : List CsvRow}, (l.map CsvRow.callsign).Nodup →
      ((CSVStorage.upsertRow d k l).map CsvRow.callsign).Nodup := by
  intro l
  induction l with
  | nil =>
    intro _
    simp [CSVStorage.upsertRow]
  | cons x xs ih =>
    intro h
    rw [List.map_cons] at h
    rcases List.nodup_cons.mp h with ⟨hx1, hx2⟩
    by_cases hx : x.callsign = k
    · simp only [CSVStorage.upsertRow, if_pos hx, List.map_cons]
      refine List.nodup_cons.mpr ⟨?_, hx2⟩
      rw [hd, ← hx]
      exact hx1
    · simp only [CSVStorage.upsertRow, if_neg hx, List.map_cons]
      refine List.nodup_cons.mpr ⟨?_, ih hx2⟩
      intro hmem
      rcases mem_map_upsertRow hmem with h2 | h2
      · exact hx1 h2
      · exact hx (h2.trans hd)

theorem upsertRow_split {d : CsvRow} {cs : String} :
    ∀ {l : List CsvRow}, cs ∈ l.map CsvRow.callsign →
      ∃ l1 x l2, l = l1 ++ x :: l2 ∧ x.callsign = cs ∧
        (∀ y ∈ l1, y.callsign ≠ cs) ∧
        CSVStorage.upsertRow d cs l = l1 ++ d :: l2 := by
  intro l
  induction l with
  | nil => intro h; simp at h
  | cons x xs ih =>
    intro h
    by_cases hx : x.callsign = cs
    · exact ⟨[], x, xs, by simp, hx, by simp,
        by simp [CSVStorage.upsertRow, if_pos hx]⟩
    · have hmem : cs ∈ xs.map CsvRow.callsign := by
        rw [List.map_cons, List.mem_cons] at h
        rcases h with h1 | h1
        · exact absurd h1.symm hx
        · exact h1
      rcases ih hmem with ⟨l1, x0, l2, heq, hx0, hl1, hup⟩
      exact ⟨x :: l1, x0, l2, by simp [heq], hx0,
        by
          intro y hy
          rcases List.mem_cons.mp hy with hy | hy
          · rw [hy]; exact hx
          · exact hl1 y hy,
        by simp [CSVStorage.upsertRow, if_neg hx, hup]⟩

theorem upsertRow_not_mem {d : CsvRow} {cs : String} :
    ∀ {l : List CsvRow}, cs ∉ l.map CsvRow.callsign →
      CSVStorage.upsertRow d cs l = l ++ [d] := by
  intro l
  induction l with
  | nil => intro _; simp [CSVStorage.upsertRow]
  | cons x xs ih =>
    intro h
    have hx : ¬(x.callsign = cs) := by
      intro hc
      exact h (by simp [hc])
    have hxs : cs ∉ xs.map CsvRow.callsign := by
      intro hc
      exact h (by simp [hc])
    simp [CSVStorage.upsertRow, if_neg hx, ih hxs]

theorem upsertRow_idem {d : CsvRow} {k : String} (hd : d.callsign = k) :
    ∀ l : List CsvRow,
      CSVStorage.upsertRow d k (CSVStorage.upsertRow d k l)
        = CSVStorage.upsertRow d k l := by
  intro l
  induction l with
  | nil => simp [CSVStorage.upsertRow, if_pos hd]
  | cons x xs ih =>
    by_cases hx : x.callsign = k
    · simp [CSVStorage.upsertRow, if_pos hx, if_pos hd]
    · simp [CSVStorage.upsertRow, if_neg hx, ih]

theorem csvClean_load (st : CsvState) : CsvClean (CSVStorage.load_data st) := by
  intro r hr
  unfold CSVStorage.load_data at hr
  cases hf : st.file with
  | table rows =>
    rw [hf] at hr
    exact (List.mem_filter.mp hr).2
  | missing => rw [hf] at hr; simp at hr
  | unreadable => rw [hf] at hr; simp at hr

theorem rowTruthy_aircraft_to_row (a : Aircraft) :
    CSVStorage.rowTruthy (CSVStorage.aircraft_to_row a) = true := by
  simp [CSVStorage.rowTruthy, CSVStorage.aircraft_to_row, NumStr.truthy]

theorem csvClean_filter_eq {rows : List CsvRow} (h : CsvClean rows) :
    rows.filter CSVStorage.rowTruthy = rows :=
  List.filter_eq_self.mpr h

theorem csvClean_upsertRow {newRow : CsvRow} {cs : String} {l : List CsvRow}
    (hn : CSVStorage.rowTruthy newRow = true) (h : CsvClean l) :
    CsvClean (CSVStorage.upsertRow newRow cs l) := by
  intro r hr
  rcases mem_upsertRow hr with h2 | h2
  · exact h r h2
  · rw [h2]; exact hn

theorem roundToPlaces_eq_self {k : ℕ} {q : ℚ} (h : (q * 10 ^ k).den = 1) :
    roundToPlaces k q = q := by
  have h1 : ((q * 10 ^ k).num : ℚ) = q * 10 ^ k :=
    Rat.coe_int_num_of_den_eq_one h
  have hk : ((10 : ℚ) ^ k) ≠ 0 := by positivity
  unfold roundToPlaces
  rw [← h1, round_intCast, h1]
  field_simp

theorem validateVelocity_num_of_nonneg {q : ℚ} (h : 0 ≤ q) :
    validateVelocity (PyVal.num q) = q := by
  simp [validateVelocity, pyFloat, max_eq_right h]

theorem validateAltitude_num_of_le {q : ℚ} (h : -1000 ≤ q) :
    validateAltitude (PyVal.num q) = q := by
  simp [validateAltitude, pyFloat, max_eq_right h]

theorem validateCallsign_of_valid {s : String} (h1 : s ≠ "") (h2 : pyStrip s = s) :
    validateCallsign (PyVal.str s) = s := by
  simp [validateCallsign, h1, h2]

theorem validateCountry_of_valid {s : String} (h1 : s ≠ "") (h2 : pyStrip s = s) :
    validateCountry (PyVal.str s) = s := by
  simp [validateCountry, h1, h2]

theorem pyStrBool_toLower (b : Bool) :
    decide (pyLower (pyStrBool b) = "true") = b := by
  cases b <;> decide

theorem from_dict_to_dict {r : Aircraft} (h : r.Valid) :
    Aircraft.from_dict r.to_dict = r := by
  obtain ⟨h1, h2, h3, h4, h5, h6⟩ := h
  simp [Aircraft.from_dict, Aircraft.to_dict, Aircraft.init,
    validateCallsign_of_valid h1 h2, validateCountry_of_valid h3 h4,
    validateVelocity_num_of_nonneg h5, validateAltitude_num_of_le h6]

attribute [local semireducible] Rat.mul Rat.add Rat.sub Rat.inv in
/-- C7: constructing with velocity -50 yields 0; altitude -500 is kept;
the standalone validate_altitude rejects -5000 while the constructor clamps
it to -1000; non-numeric velocity or altitude input degrades to 0. -/
theorem c7_numeric_validation :
    (Aircraft.init (PyVal.str "TEST") (PyVal.str "Russia") (PyVal.num (-50))
        (PyVal.num 5000) "Unknown" 0 0 true 0).velocity = 0 ∧
    (Aircraft.init (PyVal.str "TEST") (PyVal.str "Russia") (PyVal.num 100)
        (PyVal.num (-500)) "Unknown" 0 0 true 0).altitude = -500 ∧
    Validators.validate_altitude (PyVal.num (-5000)) = false ∧
    Validators.validate_altitude (PyVal.num (-500)) = true ∧
    (Aircraft.init (PyVal.str "TEST") (PyVal.str "Russia") (PyVal.num 100)
        (PyVal.num (-5000)) "Unknown" 0 0 true 0).altitude = -1000 ∧
    validateVelocity (PyVal.str "abc") = 0 ∧
    validateAltitude (PyVal.str "abc") = 0 ∧
    validateVelocity PyVal.none = 0 ∧
    validateAltitude PyVal.none = 0 := by
  decide

attribute [local semireducible] Rat.mul Rat.add Rat.sub Rat.inv in
/-- C6: the claim fails on the code: a whitespace-only callsign string is
truthy and a str, so _validate_callsign strips it - to the empty string,
not to the sentinel, and the constructed callsign is empty. -/
theorem c6_callsign_counterexample :
    (Aircraft.init (PyVal.str "   ") (PyVal.str "Russia") (PyVal.num 100)
        (PyVal.num 5000) "Unknown" 0 0 true 0).callsign = ""
      ∧ ("" : String) ≠ "Unknown" := by
  decide

/-- C6 (amended): non-string or empty-string callsign input falls back to
the sentinel Unknown, any other string is trimmed; a whitespace-only string
therefore yields the empty callsign, so the field can be empty after
construction. -/
theorem c6_callsign_amended (v : PyVal) (s : String) :
    ((∀ t, v ≠ PyVal.str t) → validateCallsign v = "Unknown") ∧
    validateCallsign (PyVal.str "") = "Unknown" ∧
    (s ≠ "" → validateCallsign (PyVal.str s) = pyStrip s) ∧
    (Aircraft.init (PyVal.str s) (PyVal.str "Russia") (PyVal.num 100)
        (PyVal.num 5000) "Unknown" 0 0 true 0).callsign
      = validateCallsign (PyVal.str s) := by
  refine ⟨?_, by decide, ?_, rfl⟩
  · intro h
    cases v with
    | str t => exact absurd rfl (h t)
    | num q => rfl
    | bool b => rfl
    | none => rfl
  · intro h
    simp [validateCallsign, h]

/-- Witness for c6_callsign_amended at concrete inputs: a numeric callsign
falls back to the sentinel and a padded string is trimmed. -/
theorem c6_callsign_witness :
    validateCallsign (PyVal.num 100) = "Unknown" ∧
    validateCallsign (PyVal.str "  AFL101 ") = "AFL101" := by
  have h1 := (c6_callsign_amended (PyVal.num 100) "x").1
    (fun t ht => PyVal.noConfusion ht)
  have h2 := (c6_callsign_amended (PyVal.num 100) "  AFL101 ").2.2.1 (by decide)
  exact ⟨h1, by rw [h2]; decide⟩

attribute [local semireducible] Rat.mul Rat.add Rat.sub Rat.inv in
/-- C1: the exact round-trip law fails on the CSV backend: a valid record
with velocity 1.234 is serialized with two decimals and comes back with
velocity 1.23, so from_mapping after to_mapping is not field-exact there. -/
theorem c1_roundtrip_counterexample :
    (Aircraft.mk "AFL101" "Russia" (617/500) 1000 "ab1234" 0 0 true 0).Valid ∧
    CSVStorage.row_to_aircraft (CSVStorage.aircraft_to_row
        (Aircraft.mk "AFL101" "Russia" (617/500) 1000 "ab1234" 0 0 true 0))
      = Except.ok (Aircraft.mk "AFL101" "Russia" (123/100) 1000 "ab1234" 0 0 true 0) ∧
    Aircraft.mk "AFL101" "Russia" (123/100) 1000 "ab1234" 0 0 true 0
      ≠ Aircraft.mk "AFL101" "Russia" (617/500) 1000 "ab1234" 0 0 true 0 := by
  decide

/-- C1 (amended): for every valid record the JSON round trip from_dict after
to_dict is field-exact; the CSV round trip through the text row is
field-exact exactly on records whose numeric fields already carry at most
the serialized precision (2 decimals for velocity, altitude and
vertical_rate, 6 for longitude and latitude) - otherwise the CSV cell
rounds them. -/
theorem c1_roundtrip_amended (r : Aircraft) :
    (r.Valid → Aircraft.from_dict r.to_dict = r) ∧
    (r.Valid → (r.velocity * 10 ^ 2).den = 1 → (r.altitude * 10 ^ 2).den = 1 →
      (r.vertical_rate * 10 ^ 2).den = 1 → (r.longitude * 10 ^ 6).den = 1 →
      (r.latitude * 10 ^ 6).den = 1 →
      CSVStorage.row_to_aircraft (CSVStorage.aircraft_to_row r) = Except.ok r) := by
  constructor
  · exact fun h => from_dict_to_dict h
  · intro h hv ha hvr hlon hlat
    obtain ⟨h1, h2, h3, h4, h5, h6⟩ := h
    simp [CSVStorage.row_to_aircraft, CSVStorage.aircraft_to_row, NumStr.toFloat,
      roundToPlaces_eq_self hv, roundToPlaces_eq_self ha, roundToPlaces_eq_self hvr,
      roundToPlaces_eq_self hlon, roundToPlaces_eq_self hlat, bind, Except.bind,
      Aircraft.init, validateCallsign_of_valid h1 h2, validateCountry_of_valid h3 h4,
      validateVelocity_num_of_nonneg h5, validateAltitude_num_of_le h6,
      pyStrBool_toLower, pure, Except.pure]

attribute [local semireducible] Rat.mul Rat.add Rat.sub Rat.inv in
/-- Witness for c1_roundtrip_amended: a concrete valid record at serialized
precision round-trips exactly through both backends. -/
theorem c1_roundtrip_witness :
    Aircraft.from_dict (Aircraft.to_dict
        (Aircraft.mk "AFL101" "Russia" (5/2) (-500) "ab1234" (37/250000) 55 false 0))
      = Aircraft.mk "AFL101" "Russia" (5/2) (-500) "ab1234" (37/250000) 55 false 0 ∧
    CSVStorage.row_to_aircraft (CSVStorage.aircraft_to_row
        (Aircraft.mk "AFL101" "Russia" (5/2) (-500) "ab1234" (37/250000) 55 false 0))
      = Except.ok (Aircraft.mk "AFL101" "Russia" (5/2) (-500) "ab1234" (37/250000) 55 false 0) := by
  have h := c1_roundtrip_amended
    (Aircraft.mk "AFL101" "Russia" (5/2) (-500) "ab1234" (37/250000) 55 false 0)
  exact ⟨h.1 (by decide),
    h.2 (by decide) (by decide) (by decide) (by decide) (by decide) (by decide)⟩

/-- C3: adding a record whose callsign matches a stored record replaces the
first matched record wholesale - all nine stored fields become r's
serialized fields - leaves every other record unchanged, and leaves count()
unchanged, on both backends (states with a writable file). -/
theorem c3_upsert_by_key (f : JsonFile) (g : CsvFile) (r : Aircraft) :
    (r.callsign ∈ (JSONStorage.load_data { file := f, writable := true }).map
        AircraftDict.callsign →
      ∃ l1 x l2,
        JSONStorage.load_data { file := f, writable := true } = l1 ++ x :: l2 ∧
        x.callsign = r.callsign ∧ (∀ y ∈ l1, y.callsign ≠ r.callsign) ∧
        JSONStorage.load_data
            (JSONStorage.add_aircraft r { file := f, writable := true }).2
          = l1 ++ r.to_dict :: l2 ∧
        JSONStorage.count (JSONStorage.add_aircraft r { file := f, writable := true }).2
          = JSONStorage.count { file := f, writable := true }) ∧
    (r.callsign ∈ (CSVStorage.load_data { file := g, writable := true }).map
        CsvRow.callsign →
      ∃ l1 x l2,
        CSVStorage.load_data { file := g, writable := true } = l1 ++ x :: l2 ∧
        x.callsign = r.callsign ∧ (∀ y ∈ l1, y.callsign ≠ r.callsign) ∧
        CSVStorage.load_data
            (CSVStorage.add_aircraft r { file := g, writable := true }).2
          = l1 ++ CSVStorage.aircraft_to_row r :: l2 ∧
        CSVStorage.count (CSVStorage.add_aircraft r { file := g, writable := true }).2
          = CSVStorage.count { file := g, writable := true }) := by
  constructor
  · intro hmem
    rcases upsertFirst_split (d := r.to_dict) hmem with ⟨l1, x, l2, heq, hx, hl1, hup⟩
    refine ⟨l1, x, l2, heq, hx, hl1, ?_, ?_⟩
    · rw [JSONStorage.add_aircraft, json_load_save]
      simp [hup]
    · rw [JSONStorage.count, JSONStorage.count, JSONStorage.add_aircraft, json_load_save,
        if_pos rfl, hup, heq]
      simp
  · intro hmem
    rcases upsertRow_split (d := CSVStorage.aircraft_to_row r) hmem with
      ⟨l1, x, l2, heq, hx, hl1, hup⟩
    have hclean : CsvClean (CSVStorage.upsertRow (CSVStorage.aircraft_to_row r)
        r.callsign (CSVStorage.load_data { file := g, writable := true })) :=
      csvClean_upsertRow (rowTruthy_aircraft_to_row r) (csvClean_load _)
    refine ⟨l1, x, l2, heq, hx, hl1, ?_, ?_⟩
    · rw [CSVStorage.add_aircraft, csv_load_save, if_pos rfl,
        csvClean_filter_eq hclean, hup]
    · rw [CSVStorage.count, CSVStorage.count, CSVStorage.add_aircraft, csv_load_save,
        if_pos rfl, csvClean_filter_eq hclean, hup, heq]
      simp

/-- Witness for c3_upsert_by_key: adding a record over a one-record store
that already holds the same callsign keeps count at 1 on both backends. -/
theorem c3_upsert_witness :
    JSONStorage.count (JSONStorage.add_aircraft sampleAircraft
        { file := JsonFile.wellFormed [Aircraft.to_dict sampleAircraft], writable := true }).2
      = JSONStorage.count { file := JsonFile.wellFormed [Aircraft.to_dict sampleAircraft], writable := true } ∧
    CSVStorage.count (CSVStorage.add_aircraft sampleAircraft
        { file := CsvFile.table [CSVStorage.aircraft_to_row sampleAircraft], writable := true }).2
      = CSVStorage.count { file := CsvFile.table [CSVStorage.aircraft_to_row sampleAircraft], writable := true } := by
  have h := c3_upsert_by_key
    (JsonFile.wellFormed [Aircraft.to_dict sampleAircraft])
    (CsvFile.table [CSVStorage.aircraft_to_row sampleAircraft]) sampleAircraft
  rcases h.1 (by decide) with ⟨_, _, _, _, _, _, _, hc1⟩
  rcases h.2 (by decide) with ⟨_, _, _, _, _, _, _, hc2⟩
  exact ⟨hc1, hc2⟩

/-- C4: adding the same record twice is idempotent: the second add returns
the same result pair and leaves the stored state and count() unchanged, on
both backends (states with a writable file). -/
theorem c4_upsert_idempotent (f : JsonFile) (g : CsvFile) (r : Aircraft) :
    JSONStorage.add_aircraft r
        (JSONStorage.add_aircraft r { file := f, writable := true }).2
      = JSONStorage.add_aircraft r { file := f, writable := true } ∧
    JSONStorage.count (JSONStorage.add_aircraft r
        (JSONStorage.add_aircraft r { file := f, writable := true }).2).2
      = JSONStorage.count (JSONStorage.add_aircraft r { file := f, writable := true }).2 ∧
    CSVStorage.add_aircraft r
        (CSVStorage.add_aircraft r { file := g, writable := true }).2
      = CSVStorage.add_aircraft r { file := g, writable := true } ∧
    CSVStorage.count (CSVStorage.add_aircraft r
        (CSVStorage.add_aircraft r { file := g, writable := true }).2).2
      = CSVStorage.count (CSVStorage.add_aircraft r { file := g, writable := true }).2 := by
  have hjson : JSONStorage.add_aircraft r
      (JSONStorage.add_aircraft r { file := f, writable := true }).2
      = JSONStorage.add_aircraft r { file := f, writable := true } := by
    simp only [JSONStorage.add_aircraft]
    rw [json_load_save, if_pos rfl,
      upsertFirst_idem (d := r.to_dict) (k := r.callsign) rfl]
    rfl
  have hcsv : CSVStorage.add_aircraft r
      (CSVStorage.add_aircraft r { file := g, writable := true }).2
      = CSVStorage.add_aircraft r { file := g, writable := true } := by
    have hclean : CsvClean (CSVStorage.upsertRow (CSVStorage.aircraft_to_row r)
        r.callsign (CSVStorage.load_data { file := g, writable := true })) :=
      csvClean_upsertRow (rowTruthy_aircraft_to_row r) (csvClean_load _)
    simp only [CSVStorage.add_aircraft]
    rw [csv_load_save, if_pos rfl, csvClean_filter_eq hclean,
      upsertRow_idem (d := CSVStorage.aircraft_to_row r) (k := r.callsign) rfl]
    rfl
  exact ⟨hjson, by rw [hjson], hcsv, by rw [hcsv]⟩

theorem exists_split_of_mem_nodup {a : Type} (key : a → String) {cs : String}
    {l : List a} (hmem : cs ∈ l.map key) (hnd : (l.map key).Nodup) :
    ∃ l1 x l2, l = l1 ++ x :: l2 ∧ key x = cs ∧
      (∀ y ∈ l1, key y ≠ cs) ∧ (∀ y ∈ l2, key y ≠ cs) := by
  rcases List.mem_map.mp hmem with ⟨x, hx, hxcs⟩
  rcases List.append_of_mem hx with ⟨l1, l2, rfl⟩
  rw [List.map_append, List.map_cons] at hnd
  rcases List.nodup_append.mp hnd with ⟨_, hnd2, hdisj⟩
  rcases List.nodup_cons.mp hnd2 with ⟨hx2, _⟩
  refine ⟨l1, x, l2, rfl, hxcs, ?_, ?_⟩
  · intro y hy hyc
    exact hdisj (List.mem_map.mpr ⟨y, hy, rfl⟩) (by simp [hyc, ← hxcs])
  · intro y hy hyc
    exact hx2 (by rw [hxcs, ← hyc]; exact List.mem_map.mpr ⟨y, hy, rfl⟩)

theorem filter_keep_of_no_match {a : Type} (key : a → String) {cs : String}
    {l : List a} (h : ∀ y ∈ l, key y ≠ cs) :
    l.filter (fun y => !(key y = cs)) = l := by
  refine List.filter_eq_self.mpr ?_
  intro y hy
  simp [h y hy]

theorem csvClean_filter {p : CsvRow → Bool} {l : List CsvRow} (h : CsvClean l) :
    CsvClean (l.filter p) := by
  intro r hr
  exact h r (List.mem_filter.mp hr).1

attribute [local semireducible] Rat.mul Rat.add Rat.sub Rat.inv in
/-- C5: the as-stated claim, quantified over every store state, fails: on a
raw file state holding two records with the same callsign (which no public
operation produces, but which the file format admits), delete removes both
matches and count drops by 2, not exactly 1. -/
theorem c5_delete_counterexample :
    JSONStorage.count { file := JsonFile.wellFormed [Aircraft.to_dict sampleAircraft, Aircraft.to_dict sampleAircraft], writable := true } = 2 ∧
    (JSONStorage.delete_aircraft "AFL101" { file := JsonFile.wellFormed [Aircraft.to_dict sampleAircraft, Aircraft.to_dict sampleAircraft], writable := true }).1 = true ∧
    JSONStorage.count (JSONStorage.delete_aircraft "AFL101" { file := JsonFile.wellFormed [Aircraft.to_dict sampleAircraft, Aircraft.to_dict sampleAircraft], writable := true }).2 = 0 := by
  decide

/-- C5 (amended): on a store whose stored callsigns are pairwise distinct
(which every store reachable from empty satisfies, cf. c9): deleting a
present callsign returns true, removes exactly the one matching record
leaving every other record unchanged in order, and drops count() by exactly
1; deleting an absent callsign returns false and leaves the state
untouched. On both backends, for writable states. -/
theorem c5_delete_amended (f : JsonFile) (g : CsvFile) (cs : String) :
    (((JSONStorage.load_data { file := f, writable := true }).map AircraftDict.callsign).Nodup →
      cs ∈ (JSONStorage.load_data { file := f, writable := true }).map AircraftDict.callsign →
      ∃ l1 x l2,
        JSONStorage.load_data { file := f, writable := true } = l1 ++ x :: l2 ∧
        x.callsign = cs ∧ (∀ y ∈ l1 ++ l2, y.callsign ≠ cs) ∧
        (JSONStorage.delete_aircraft cs { file := f, writable := true }).1 = true ∧
        JSONStorage.load_data
            (JSONStorage.delete_aircraft cs { file := f, writable := true }).2
          = l1 ++ l2 ∧
        JSONStorage.count (JSONStorage.delete_aircraft cs { file := f, writable := true }).2 + 1
          = JSONStorage.count { file := f, writable := true }) ∧
    (cs ∉ (JSONStorage.load_data { file := f, writable := true }).map AircraftDict.callsign →
      JSONStorage.delete_aircraft cs { file := f, writable := true }
        = (false, { file := f, writable := true })) ∧
    (((CSVStorage.load_data { file := g, writable := true }).map CsvRow.callsign).Nodup →
      cs ∈ (CSVStorage.load_data { file := g, writable := true }).map CsvRow.callsign →
      ∃ l1 x l2,
        CSVStorage.load_data { file := g, writable := true } = l1 ++ x :: l2 ∧
        x.callsign = cs ∧ (∀ y ∈ l1 ++ l2, y.callsign ≠ cs) ∧
        (CSVStorage.delete_aircraft cs { file := g, writable := true }).1 = true ∧
        CSVStorage.load_data
            (CSVStorage.delete_aircraft cs { file := g, writable := true }).2
          = l1 ++ l2 ∧
        CSVStorage.count (CSVStorage.delete_aircraft cs { file := g, writable := true }).2 + 1
          = CSVStorage.count { file := g, writable := true }) ∧
    (cs ∉ (CSVStorage.load_data { file := g, writable := true }).map CsvRow.callsign →
      CSVStorage.delete_aircraft cs { file := g, writable := true }
        = (false, { file := g, writable := true })) := by
  refine ⟨?_, ?_, ?_, ?_⟩
  · intro hnd hmem
    rcases exists_split_of_mem_nodup AircraftDict.callsign hmem hnd with
      ⟨l1, x, l2, heq, hx, h1, h2⟩
    have hfilter : (JSONStorage.load_data { file := f, writable := true }).filter
        (fun d => !(d.callsign = cs)) = l1 ++ l2 := by
      rw [heq, List.filter_append, filter_keep_of_no_match AircraftDict.callsign h1,
        List.filter_cons_of_neg (by simp [hx]),
        filter_keep_of_no_match AircraftDict.callsign h2]
    have hlen : (l1 ++ l2).length < (JSONStorage.load_data { file := f, writable := true }).length := by
      rw [heq]
      simp
    refine ⟨l1, x, l2, heq, hx, ?_, ?_, ?_, ?_⟩
    · intro y hy
      rcases List.mem_append.mp hy with hy | hy
      · exact h1 y hy
      · exact h2 y hy
    · simp only [JSONStorage.delete_aircraft, hfilter]
      rw [if_pos hlen]
      rfl
    · simp only [JSONStorage.delete_aircraft, hfilter]
      rw [if_pos hlen, json_load_save, if_pos rfl]
    · simp only [JSONStorage.count, JSONStorage.delete_aircraft, hfilter]
      rw [if_pos hlen, json_load_save, if_pos rfl, heq]
      simp
      omega
  · intro hmem
    have hall : ∀ y ∈ JSONStorage.load_data { file := f, writable := true }, y.callsign ≠ cs := by
      intro y hy hyc
      exact hmem (List.mem_map.mpr ⟨y, hy, hyc⟩)
    have hfilter : (JSONStorage.load_data { file := f, writable := true }).filter
        (fun d => !(d.callsign = cs)) = JSONStorage.load_data { file := f, writable := true } :=
      filter_keep_of_no_match AircraftDict.callsign hall
    simp only [JSONStorage.delete_aircraft, hfilter]
    rw [if_neg (lt_irrefl _)]
  · intro hnd hmem
    rcases exists_split_of_mem_nodup CsvRow.callsign hmem hnd with
      ⟨l1, x, l2, heq, hx, h1, h2⟩
    have hfilter : (CSVStorage.load_data { file := g, writable := true }).filter
        (fun r => !(r.callsign = cs)) = l1 ++ l2 := by
      rw [heq, List.filter_append, filter_keep_of_no_match CsvRow.callsign h1,
        List.filter_cons_of_neg (by simp [hx]),
        filter_keep_of_no_match CsvRow.callsign h2]
    have hlen : (l1 ++ l2).length < (CSVStorage.load_data { file := g, writable := true }).length := by
      rw [heq]
      simp
    have hclean : CsvClean (l1 ++ l2) := by
      rw [← hfilter]
      exact csvClean_filter (csvClean_load _)
    refine ⟨l1, x, l2, heq, hx, ?_, ?_, ?_, ?_⟩
    · intro y hy
      rcases List.mem_append.mp hy with hy | hy
      · exact h1 y hy
      · exact h2 y hy
    · simp only [CSVStorage.delete_aircraft, hfilter]
      rw [if_pos hlen]
    · simp only [CSVStorage.delete_aircraft, hfilter]
      rw [if_pos hlen]
      rw [csv_load_save, if_pos rfl, csvClean_filter_eq hclean]
    · simp only [CSVStorage.count, CSVStorage.delete_aircraft, hfilter]
      rw [if_pos hlen]
      rw [csv_load_save, if_pos rfl, csvClean_filter_eq hclean, heq]
      simp
      omega
  · intro hmem
    have hall : ∀ y ∈ CSVStorage.load_data { file := g, writable := true }, y.callsign ≠ cs := by
      intro y hy hyc
      exact hmem (List.mem_map.mpr ⟨y, hy, hyc⟩)
    have hfilter : (CSVStorage.load_data { file := g, writable := true }).filter
        (fun r => !(r.callsign = cs)) = CSVStorage.load_data { file := g, writable := true } :=
      filter_keep_of_no_match CsvRow.callsign hall
    simp only [CSVStorage.delete_aircraft, hfilter]
    rw [if_neg (lt_irrefl _)]

/-- Witness for c5_delete_amended: deleting the stored callsign from a
one-record store returns true and empties it; deleting an unknown callsign
from it returns false and changes nothing. Both backends. -/
theorem c5_delete_witness :
    (JSONStorage.delete_aircraft "AFL101"
        { file := JsonFile.wellFormed [Aircraft.to_dict sampleAircraft], writable := true }).1 = true ∧
    JSONStorage.delete_aircraft "ZZZ999"
        { file := JsonFile.wellFormed [Aircraft.to_dict sampleAircraft], writable := true }
      = (false, { file := JsonFile.wellFormed [Aircraft.to_dict sampleAircraft], writable := true }) ∧
    (CSVStorage.delete_aircraft "AFL101"
        { file := CsvFile.table [CSVStorage.aircraft_to_row sampleAircraft], writable := true }).1 = true ∧
    CSVStorage.delete_aircraft "ZZZ999"
        { file := CsvFile.table [CSVStorage.aircraft_to_row sampleAircraft], writable := true }
      = (false, { file := CsvFile.table [CSVStorage.aircraft_to_row sampleAircraft], writable := true }) := by
  have h := c5_delete_amended (JsonFile.wellFormed [Aircraft.to_dict sampleAircraft])
    (CsvFile.table [CSVStorage.aircraft_to_row sampleAircraft]) "AFL101"
  have h2 := c5_delete_amended (JsonFile.wellFormed [Aircraft.to_dict sampleAircraft])
    (CsvFile.table [CSVStorage.aircraft_to_row sampleAircraft]) "ZZZ999"
  rcases h.1 (by decide) (by decide) with ⟨_, _, _, _, _, _, hret, _, _⟩
  rcases h.2.2.1 (by decide) (by decide) with ⟨_, _, _, _, _, _, hret2, _, _⟩
  exact ⟨hret, h2.2.1 (by decide), hret2, h2.2.2.2 (by decide)⟩

theorem addLoop_count : ∀ (l : List Aircraft) (data : List AircraftDict) (c : ℕ),
    (JSONStorage.addLoop l data c).2 = c + l.length := by
  intro l
  induction l with
  | nil => intro data c; simp [JSONStorage.addLoop]
  | cons a rest ih =>
    intro data c
    rw [JSONStorage.addLoop, ih]
    simp only [List.length_cons]
    omega

theorem addManyLoop_count : ∀ (l : List Aircraft) (data : List CsvRow)
    (idx : String → Option ℕ) (c : ℕ),
    (CSVStorage.addManyLoop l data idx c).2 = c + l.length := by
  intro l
  induction l with
  | nil => intro data idx c; simp [CSVStorage.addManyLoop]
  | cons a rest ih =>
    intro data idx c
    rw [CSVStorage.addManyLoop]
    cases idx a.callsign with
    | some i =>
      rw [ih]
      simp only [List.length_cons]
      omega
    | none =>
      rw [ih]
      simp only [List.length_cons]
      omega

/-- C10: add_multiple_aircraft returns exactly the length of its input list
on both backends and for every store state - including unwritable ones, so
the returned count never reflects the discarded save result; the CSV
backend returns 0 for an empty list with the state untouched. -/
theorem c10_add_many_count (l : List Aircraft) (stj : JsonState) (stc : CsvState)
    (fj : JsonFile) (gc : CsvFile) :
    (JSONStorage.add_multiple_aircraft l stj).1 = l.length ∧
    (CSVStorage.add_multiple_aircraft l stc).1 = l.length ∧
    CSVStorage.add_multiple_aircraft [] stc = (0, stc) ∧
    (JSONStorage.add_multiple_aircraft l { file := fj, writable := false }).1
      = (JSONStorage.add_multiple_aircraft l { file := fj, writable := true }).1 ∧
    (CSVStorage.add_multiple_aircraft l { file := gc, writable := false }).1
      = (CSVStorage.add_multiple_aircraft l { file := gc, writable := true }).1 := by
  have hjson : ∀ st : JsonState, (JSONStorage.add_multiple_aircraft l st).1 = l.length := by
    intro st
    rw [JSONStorage.add_multiple_aircraft]
    simp [addLoop_count]
  have hcsv : ∀ st : CsvState, (CSVStorage.add_multiple_aircraft l st).1 = l.length := by
    intro st
    rw [CSVStorage.add_multiple_aircraft]
    by_cases h : l.isEmpty
    · rw [if_pos h]
      simp [List.isEmpty_iff.mp h]
    · rw [if_neg h]
      simp [addManyLoop_count]
  refine ⟨hjson stj, hcsv stc, rfl, ?_, ?_⟩
  · rw [hjson, hjson]
  · rw [hcsv, hcsv]

theorem row_to_aircraft_ok {r : CsvRow} (h : r.numOk = true) :
    ∃ a, CSVStorage.row_to_aircraft r = Except.ok a := by
  rcases r with ⟨c, o, v, al, i, lon, lat, g, vr⟩
  cases v with
  | junk s => simp [CsvRow.numOk, NumStr.parses] at h
  | ofRat qv =>
    cases al with
    | junk s => simp [CsvRow.numOk, NumStr.parses] at h
    | ofRat qa =>
      cases lon with
      | junk s => simp [CsvRow.numOk, NumStr.parses] at h
      | ofRat ql =>
        cases lat with
        | junk s => simp [CsvRow.numOk, NumStr.parses] at h
        | ofRat qt =>
          cases vr with
          | junk s => simp [CsvRow.numOk, NumStr.parses] at h
          | ofRat qr => exact ⟨_, rfl⟩

theorem mapM_row_to_aircraft_ok : ∀ {rows : List CsvRow},
    (∀ r ∈ rows, r.numOk = true) →
    ∃ l, rows.mapM CSVStorage.row_to_aircraft = Except.ok l ∧
      ∀ a, a ∈ l ↔ ∃ r ∈ rows, CSVStorage.row_to_aircraft r = Except.ok a := by
  intro rows
  induction rows with
  | nil =>
    intro _
    refine ⟨[], rfl, by simp⟩
  | cons r rest ih =>
    intro h
    rcases row_to_aircraft_ok (h r (by simp)) with ⟨a0, ha0⟩
    rcases ih (fun x hx => h x (by simp [hx])) with ⟨l, hl, hmem⟩
    refine ⟨a0 :: l, ?_, ?_⟩
    · rw [List.mapM_cons, ha0, hl]
      rfl
    · intro a
      simp only [List.mem_cons, hmem]
      constructor
      · rintro (rfl | ⟨x, hx, hc⟩)
        · exact ⟨r, by simp, ha0⟩
        · exact ⟨x, by simp [hx], hc⟩
      · rintro ⟨x, hx, hc⟩
        rcases hx with rfl | hx
        · left
          have h2 := ha0.symm.trans hc
          injection h2 with h3
          exact h3.symm
        · right
          exact ⟨x, hx, hc⟩

theorem filterRows_ok {c : List Criterion} : ∀ {rows : List CsvRow},
    (∀ r ∈ rows, r.numOk = true) →
    ∃ l, CSVStorage.filterRows c rows = Except.ok l ∧
      ∀ a, a ∈ l ↔ ∃ r ∈ rows, CSVStorage.rowMatchesAll c r = true ∧
        CSVStorage.row_to_aircraft r = Except.ok a := by
  intro rows
  induction rows with
  | nil =>
    intro _
    refine ⟨[], rfl, by simp⟩
  | cons r rest ih =>
    intro h
    rcases ih (fun x hx => h x (by simp [hx])) with ⟨l, hl, hmem⟩
    by_cases hm : CSVStorage.rowMatchesAll c r = true
    · rcases row_to_aircraft_ok (h r (by simp)) with ⟨a0, ha0⟩
      refine ⟨a0 :: l, ?_, ?_⟩
      · rw [CSVStorage.filterRows, if_pos hm, ha0, hl]
        rfl
      · intro a
        simp only [List.mem_cons, hmem]
        constructor
        · rintro (rfl | ⟨x, hx, hmx, hc⟩)
          · exact ⟨r, by simp, hm, ha0⟩
          · exact ⟨x, by simp [hx], hmx, hc⟩
        · rintro ⟨x, hx, hmx, hc⟩
          rcases hx with rfl | hx
          · left
            have h2 := ha0.symm.trans hc
            injection h2 with h3
            exact h3.symm
          · right
            exact ⟨x, hx, hmx, hc⟩
    · refine ⟨l, ?_, ?_⟩
      · rw [CSVStorage.filterRows, if_neg hm]
        exact hl
      · intro a
        rw [hmem]
        constructor
        · rintro ⟨x, hx, hmx, hc⟩
          exact ⟨x, by simp [hx], hmx, hc⟩
        · rintro ⟨x, hx, hmx, hc⟩
          rcases List.mem_cons.mp hx with rfl | hx
          · exact absurd hmx hm
          · exact ⟨x, hx, hmx, hc⟩

/-- C2: the claim fails: a syntactically well-formed CSV data row whose
velocity cell holds non-numeric text makes float() raise ValueError inside
_row_to_aircraft, and the exception escapes the public get_all; the same
state meanwhile counts 1 record, so the content is not treated as empty. -/
theorem c2_error_counterexample :
    CSVStorage.get_all { file := CsvFile.table [{ callsign := "AFL101", origin_country := "Russia", velocity := NumStr.junk "abc", altitude := NumStr.ofRat 1000, icao24 := "ab1234", longitude := NumStr.ofRat 0, latitude := NumStr.ofRat 0, on_ground := "True", vertical_rate := NumStr.ofRat 0 }], writable := true }
      = Except.error PyError.valueError ∧
    CSVStorage.count { file := CsvFile.table [{ callsign := "AFL101", origin_country := "Russia", velocity := NumStr.junk "abc", altitude := NumStr.ofRat 1000, icao24 := "ab1234", longitude := NumStr.ofRat 0, latitude := NumStr.ofRat 0, on_ground := "True", vertical_rate := NumStr.ofRat 0 }], writable := true }
      = 1 := by
  decide

/-- C2 (amended): a missing file or content the format parser itself
rejects (unparseable JSON; a missing or csv.Error CSV file) loads as the
empty store, and an unwritable file makes save report false with the state
unchanged - but CSV retrieval (get_aircraft and the operations built on it)
propagates a ValueError instead of degrading when a stored row's numeric
cell cannot be coerced to float; it returns a result whenever every loaded
row's numeric cells are coercible. -/
theorem c2_error_containment_amended (b : Bool) (rowsj : List AircraftDict)
    (rowsc : List CsvRow) (fj : JsonFile) (gc : CsvFile) (stc : CsvState)
    (crit : Option (List Criterion)) :
    JSONStorage.load_data { file := JsonFile.missing, writable := b } = [] ∧
    JSONStorage.load_data { file := JsonFile.malformed, writable := b } = [] ∧
    JSONStorage.count { file := JsonFile.malformed, writable := b } = 0 ∧
    CSVStorage.load_data { file := CsvFile.missing, writable := b } = [] ∧
    CSVStorage.load_data { file := CsvFile.unreadable, writable := b } = [] ∧
    CSVStorage.count { file := CsvFile.unreadable, writable := b } = 0 ∧
    JSONStorage.save_data rowsj { file := fj, writable := false }
      = (false, { file := fj, writable := false }) ∧
    CSVStorage.save_data rowsc { file := gc, writable := false }
      = (false, { file := gc, writable := false }) ∧
    ((∀ r ∈ CSVStorage.load_data stc, r.numOk = true) →
      (CSVStorage.get_aircraft crit stc).isOk = true) := by
  refine ⟨rfl, rfl, rfl, rfl, rfl, rfl, by simp [JSONStorage.save_data],
    by simp [CSVStorage.save_data], ?_⟩
  intro h
  cases crit with
  | none =>
    rcases mapM_row_to_aircraft_ok h with ⟨l, hl, _⟩
    show ((CSVStorage.load_data stc).mapM CSVStorage.row_to_aircraft).isOk = true
    rw [hl]
    rfl
  | some cs =>
    show (if cs.isEmpty then (CSVStorage.load_data stc).mapM CSVStorage.row_to_aircraft
      else CSVStorage.filterRows cs (CSVStorage.load_data stc)).isOk = true
    by_cases hce : cs.isEmpty
    · rw [if_pos hce]
      rcases mapM_row_to_aircraft_ok h with ⟨l, hl, _⟩
      rw [hl]
      rfl
    · rw [if_neg hce]
      rcases filterRows_ok h with ⟨l, hl, _⟩
      rw [hl]
      rfl

/-- Witness for c2_error_containment_amended: retrieval on a store whose
single row was written by the store itself succeeds. -/
theorem c2_error_witness :
    (CSVStorage.get_aircraft Option.none
        { file := CsvFile.table [CSVStorage.aircraft_to_row sampleAircraft], writable := true }).isOk
      = true := by
  exact (c2_error_containment_amended true [] [] JsonFile.missing CsvFile.missing
    { file := CsvFile.table [CSVStorage.aircraft_to_row sampleAircraft], writable := true }
    Option.none).2.2.2.2.2.2.2.2 (by decide)

/-- C8: the claim fails: with criteria velocity = 0.0, a stored row whose
velocity cell is non-coercible text is treated as a MATCH (the failed
coercion compares as 0.0), and converting the matched row then raises
ValueError out of the public get_aircraft - not a silent non-match. -/
theorem c8_criteria_counterexample :
    CSVStorage.get_aircraft (Option.some [Criterion.velocity 0])
        { file := CsvFile.table [junkVelocityRow], writable := true }
      = Except.error PyError.valueError := by
  decide

/-- C8 (amended): None or empty criteria return the full set on both
backends; nonempty criteria are AND-combined equality tests, with the CSV
backend coercing stored text to the caller's type first; a non-coercible
numeric cell coerces to 0.0 for the comparison, so it mismatches every
criterion value other than 0.0 but MATCHES a 0.0 criterion (after which the
row conversion raises, see the counterexample). CSV retrieval returns a
result list whenever every loaded row is coercible. -/
theorem c8_criteria_amended (stj : JsonState) (stc : CsvState)
    (cs : List Criterion) (a : Aircraft) (r : CsvRow) (s : String) (v : ℚ) :
    JSONStorage.get_aircraft Option.none stj
      = (JSONStorage.load_data stj).map Aircraft.from_dict ∧
    JSONStorage.get_aircraft (Option.some []) stj
      = (JSONStorage.load_data stj).map Aircraft.from_dict ∧
    (a ∈ JSONStorage.get_aircraft (Option.some cs) stj ↔
      ∃ d ∈ JSONStorage.load_data stj,
        (∀ c ∈ cs, JSONStorage.criterionHolds c d = true) ∧ a = Aircraft.from_dict d) ∧
    CSVStorage.get_aircraft Option.none stc = CSVStorage.get_aircraft (Option.some []) stc ∧
    ((∀ x ∈ CSVStorage.load_data stc, x.numOk = true) →
      ∃ l, CSVStorage.get_aircraft (Option.some cs) stc = Except.ok l ∧
        ∀ b, b ∈ l ↔ ∃ x ∈ CSVStorage.load_data stc,
          (∀ c ∈ cs, CSVStorage.rowCriterionHolds c x = true) ∧
          CSVStorage.row_to_aircraft x = Except.ok b) ∧
    (r.velocity = NumStr.junk s → v ≠ 0 →
      CSVStorage.rowCriterionHolds (Criterion.velocity v) r = false) ∧
    (r.velocity = NumStr.junk s →
      CSVStorage.rowCriterionHolds (Criterion.velocity 0) r = true) := by
  refine ⟨rfl, rfl, ?_, rfl, ?_, ?_, ?_⟩
  · show a ∈ (if cs.isEmpty then (JSONStorage.load_data stj).map Aircraft.from_dict
      else ((JSONStorage.load_data stj).filter
        (fun d => JSONStorage.matchesAll cs d)).map Aircraft.from_dict) ↔ _
    by_cases hce : cs.isEmpty
    · have hcs : cs = [] := List.isEmpty_iff.mp hce
      subst hcs
      rw [if_pos hce]
      simp only [List.mem_map]
      constructor
      · rintro ⟨d, hd, rfl⟩
        exact ⟨d, hd, by simp, rfl⟩
      · rintro ⟨d, hd, _, rfl⟩
        exact ⟨d, hd, rfl⟩
    · rw [if_neg hce]
      simp only [List.mem_map, List.mem_filter]
      constructor
      · rintro ⟨d, ⟨hd, hm⟩, rfl⟩
        rw [JSONStorage.matchesAll, List.all_eq_true] at hm
        exact ⟨d, hd, hm, rfl⟩
      · rintro ⟨d, hd, hall, rfl⟩
        exact ⟨d, ⟨hd, by rw [JSONStorage.matchesAll, List.all_eq_true]; exact hall⟩, rfl⟩
  · intro h
    by_cases hce : cs.isEmpty
    · have hcs : cs = [] := List.isEmpty_iff.mp hce
      subst hcs
      rcases mapM_row_to_aircraft_ok h with ⟨l, hl, hmem⟩
      refine ⟨l, hl, ?_⟩
      intro b
      rw [hmem b]
      simp
    · rcases filterRows_ok (c := cs) h with ⟨l, hl, hmem⟩
      refine ⟨l, ?_, ?_⟩
      · show (if cs.isEmpty then (CSVStorage.load_data stc).mapM CSVStorage.row_to_aircraft
          else CSVStorage.filterRows cs (CSVStorage.load_data stc)) = Except.ok l
        rw [if_neg hce]
        exact hl
      · intro b
        rw [hmem b]
        constructor
        · rintro ⟨x, hx, hmx, hc⟩
          rw [CSVStorage.rowMatchesAll, List.all_eq_true] at hmx
          exact ⟨x, hx, hmx, hc⟩
        · rintro ⟨x, hx, hall, hc⟩
          exact ⟨x, hx, by rw [CSVStorage.rowMatchesAll, List.all_eq_true]; exact hall, hc⟩
  · intro hj hv
    simp [CSVStorage.rowCriterionHolds, CSVStorage.coerceNum, hj]
    exact fun hc => absurd hc.symm hv
  · intro hj
    simp [CSVStorage.rowCriterionHolds, CSVStorage.coerceNum, hj]

attribute [local semireducible] Rat.mul Rat.add Rat.sub Rat.inv in
/-- Witness for c8_criteria_amended at concrete inputs: a matching record is
returned by a criteria query on both backends, and a junk velocity cell
mismatches the criterion 100.0 but matches 0.0. -/
theorem c8_criteria_witness :
    Aircraft.from_dict (Aircraft.to_dict sampleAircraft)
      ∈ JSONStorage.get_aircraft (Option.some [Criterion.origin_country "Russia"])
        { file := JsonFile.wellFormed [Aircraft.to_dict sampleAircraft], writable := true } ∧
    (CSVStorage.get_aircraft (Option.some [Criterion.origin_country "Russia"])
        { file := CsvFile.table [CSVStorage.aircraft_to_row sampleAircraft], writable := true }).isOk = true ∧
    CSVStorage.rowCriterionHolds (Criterion.velocity 100) junkVelocityRow = false ∧
    CSVStorage.rowCriterionHolds (Criterion.velocity 0) junkVelocityRow = true := by
  have h := c8_criteria_amended
    { file := JsonFile.wellFormed [Aircraft.to_dict sampleAircraft], writable := true }
    { file := CsvFile.table [CSVStorage.aircraft_to_row sampleAircraft], writable := true }
    [Criterion.origin_country "Russia"]
    (Aircraft.from_dict (Aircraft.to_dict sampleAircraft)) junkVelocityRow "abc" 100
  refine ⟨?_, ?_, ?_, ?_⟩
  · exact h.2.2.1.mpr ⟨Aircraft.to_dict sampleAircraft, by decide, by decide, rfl⟩
  · rcases h.2.2.2.2.1 (by decide) with ⟨l, hl, _⟩
    rw [hl]
    rfl
  · exact h.2.2.2.2.2.1 rfl (by decide)
  · exact h.2.2.2.2.2.2 rfl

theorem lt_of_getElem?_some {a : Type} {l : List a} {i : ℕ} {x : a}
    (h : l[i]? = Option.some x) : i < l.length := by
  by_contra hn
  rw [List.getElem?_eq_none (by omega)] at h
  exact Option.noConfusion h

theorem set_self_of_getElem? {a : Type} : ∀ (l : List a) (i : ℕ) (x : a),
    l[i]? = Option.some x → l.set i x = l := by
  intro l
  induction l with
  | nil => intro i x h; simp at h
  | cons y ys ih =>
    intro i x h
    cases i with
    | zero =>
      simp at h
      simp [h]
    | succ n =>
      simp at h
      simp [ih n x h]

theorem addLoop_nodup : ∀ (l : List Aircraft) (data : List AircraftDict) (c : ℕ),
    (data.map AircraftDict.callsign).Nodup →
    ((JSONStorage.addLoop l data c).1.map AircraftDict.callsign).Nodup := by
  intro l
  induction l with
  | nil => intro data c h; exact h
  | cons a rest ih =>
    intro data c h
    rw [JSONStorage.addLoop]
    exact ih _ _ (nodup_upsertFirst (d := a.to_dict) (k := a.callsign) rfl h)

theorem buildIndexFrom_sound : ∀ (rows : List CsvRow) (k : ℕ) (cs : String) (i : ℕ),
    CSVStorage.buildIndexFrom k rows cs = Option.some i →
    ∃ j x, i = k + j ∧ rows[j]? = Option.some x ∧ x.callsign = cs := by
  intro rows
  induction rows with
  | nil =>
    intro k cs i h
    simp [CSVStorage.buildIndexFrom] at h
  | cons r rest ih =>
    intro k cs i h
    rw [CSVStorage.buildIndexFrom] at h
    cases h2 : CSVStorage.buildIndexFrom (k + 1) rest cs with
    | some i0 =>
      rw [h2] at h
      simp at h
      rcases ih (k + 1) cs i0 h2 with ⟨j, x, hij, hjx, hxc⟩
      refine ⟨j + 1, x, by omega, ?_, hxc⟩
      simpa using hjx
    | none =>
      rw [h2] at h
      simp at h
      rcases h with ⟨hcs, hki⟩
      exact ⟨0, r, by omega, by simp, hcs.symm⟩

theorem buildIndexFrom_complete : ∀ (rows : List CsvRow) (k : ℕ) (x : CsvRow),
    x ∈ rows → (CSVStorage.buildIndexFrom k rows x.callsign).isSome = true := by
  intro rows
  induction rows with
  | nil => intro k x h; simp at h
  | cons r rest ih =>
    intro k x hx
    rw [CSVStorage.buildIndexFrom]
    cases h2 : CSVStorage.buildIndexFrom (k + 1) rest x.callsign with
    | some i0 => simp
    | none =>
      rcases List.mem_cons.mp hx with rfl | hx2
      · simp
      · have h3 := ih (k + 1) x hx2
        rw [h2] at h3
        simp at h3

theorem buildIndex_sound (rows : List CsvRow) :
    IdxSound rows (CSVStorage.buildIndex rows) := by
  intro cs i h
  rcases buildIndexFrom_sound rows 0 cs i h with ⟨j, x, hij, hjx, hxc⟩
  subst hij
  simp only [Nat.zero_add]
  exact ⟨x, hjx, hxc⟩

theorem buildIndex_complete (rows : List CsvRow) :
    IdxComplete rows (CSVStorage.buildIndex rows) := by
  intro x hx
  exact buildIndexFrom_complete rows 0 x hx

theorem addManyLoop_nodup : ∀ (l : List Aircraft) (rows : List CsvRow)
    (idx : String → Option ℕ) (c : ℕ),
    (rows.map CsvRow.callsign).Nodup → IdxSound rows idx → IdxComplete rows idx →
    ((CSVStorage.addManyLoop l rows idx c).1.map CsvRow.callsign).Nodup := by
  intro l
  induction l with
  | nil => intro rows idx c h _ _; exact h
  | cons a rest ih =>
    intro rows idx c hnd hs hc
    rw [CSVStorage.addManyLoop]
    cases hidx : idx a.callsign with
    | some i =>
      rcases hs a.callsign i hidx with ⟨x, hx, hxc⟩
      have hmap : (rows.set i (CSVStorage.aircraft_to_row a)).map CsvRow.callsign
          = rows.map CsvRow.callsign := by
        rw [List.map_set]
        apply set_self_of_getElem?
        rw [List.getElem?_map, hx]
        simp [hxc, CSVStorage.aircraft_to_row]
      refine ih _ _ _ ?_ ?_ ?_
      · rw [hmap]
        exact hnd
      · intro cs j hj
        rcases hs cs j hj with ⟨x2, hx2, hx2c⟩
        by_cases hji : j = i
        · subst hji
          have hx2x : x2 = x := Option.some.inj (hx2.symm.trans hx)
          refine ⟨CSVStorage.aircraft_to_row a, ?_, ?_⟩
          · rw [List.getElem?_set_self (lt_of_getElem?_some hx2)]
          · show a.callsign = cs
            rw [← hxc, ← hx2x]
            exact hx2c
        · refine ⟨x2, ?_, hx2c⟩
          rw [List.getElem?_set_ne (fun he => hji he.symm)]
          exact hx2
      · intro y hy
        rcases List.mem_or_eq_of_mem_set hy with hy2 | hy2
        · exact hc y hy2
        · rw [hy2]
          show (idx a.callsign).isSome = true
          rw [hidx]
          rfl
    | none =>
      have hnotmem : a.callsign ∉ rows.map CsvRow.callsign := by
        intro hmem
        rcases List.mem_map.mp hmem with ⟨y, hy, hyc⟩
        have h3 := hc y hy
        rw [hyc, hidx] at h3
        exact Bool.noConfusion h3
      refine ih _ _ _ ?_ ?_ ?_
      · rw [List.map_append]
        rw [List.nodup_append]
        refine ⟨hnd, by simp, ?_⟩
        intro y hy
        simp only [List.map_cons, List.map_nil, List.mem_singleton]
        intro hy2
        rw [hy2] at hy
        exact hnotmem hy
      · intro cs j hj
        have hj2 : (if cs = a.callsign then Option.some rows.length else idx cs)
            = Option.some j := hj
        by_cases hcs : cs = a.callsign
        · rw [if_pos hcs] at hj2
          injection hj2 with hj3
          subst hj3
          refine ⟨CSVStorage.aircraft_to_row a, List.getElem?_concat_length rows _, hcs.symm⟩
        · rw [if_neg hcs] at hj2
          rcases hs cs j hj2 with ⟨x2, hx2, hx2c⟩
          refine ⟨x2, ?_, hx2c⟩
          rw [List.getElem?_append_left (lt_of_getElem?_some hx2)]
          exact hx2
      · intro y hy
        rcases List.mem_append.mp hy with hy2 | hy2
        · show (if y.callsign = a.callsign then Option.some rows.length
            else idx y.callsign).isSome = true
          by_cases hcs : y.callsign = a.callsign
          · rw [if_pos hcs]
            rfl
          · rw [if_neg hcs]
            exact hc y hy2
        · simp only [List.mem_singleton] at hy2
          rw [hy2]
          show (if a.callsign = a.callsign then Option.some rows.length
            else idx a.callsign).isSome = true
          rw [if_pos rfl]
          rfl

theorem jsonApply_nodup (op : StoreOp) (st : JsonState)
    (h : ((JSONStorage.load_data st).map AircraftDict.callsign).Nodup) :
    ((JSONStorage.load_data (jsonApply op st)).map AircraftDict.callsign).Nodup := by
  cases op with
  | add a =>
    show ((JSONStorage.load_data (JSONStorage.save_data
      (JSONStorage.upsertFirst a.to_dict a.callsign (JSONStorage.load_data st)) st).2).map
        AircraftDict.callsign).Nodup
    rw [json_load_save]
    by_cases hw : st.writable
    · rw [if_pos hw]
      exact nodup_upsertFirst (d := a.to_dict) (k := a.callsign) rfl h
    · rw [if_neg hw]
      exact h
  | addMany l =>
    show ((JSONStorage.load_data (JSONStorage.save_data
      (JSONStorage.addLoop l (JSONStorage.load_data st) 0).1 st).2).map
        AircraftDict.callsign).Nodup
    rw [json_load_save]
    by_cases hw : st.writable
    · rw [if_pos hw]
      exact addLoop_nodup l _ 0 h
    · rw [if_neg hw]
      exact h
  | del cs =>
    show ((JSONStorage.load_data (JSONStorage.delete_aircraft cs st).2).map
      AircraftDict.callsign).Nodup
    simp only [JSONStorage.delete_aircraft]
    by_cases hlt : ((JSONStorage.load_data st).filter
        (fun d => !(d.callsign = cs))).length < (JSONStorage.load_data st).length
    · rw [if_pos hlt, json_load_save]
      by_cases hw : st.writable
      · rw [if_pos hw]
        exact h.sublist (List.Sublist.map _ (List.filter_sublist _))
      · rw [if_neg hw]
        exact h
    · rw [if_neg hlt]
      exact h
  | clear =>
    show ((JSONStorage.load_data (JSONStorage.save_data [] st).2).map
      AircraftDict.callsign).Nodup
    rw [json_load_save]
    by_cases hw : st.writable
    · rw [if_pos hw]
      simp
    · rw [if_neg hw]
      exact h

theorem csvApply_nodup (op : StoreOp) (st : CsvState)
    (h : ((CSVStorage.load_data st).map CsvRow.callsign).Nodup) :
    ((CSVStorage.load_data (csvApply op st)).map CsvRow.callsign).Nodup := by
  have hfilter : ∀ rows : List CsvRow, (rows.map CsvRow.callsign).Nodup →
      (((rows.filter CSVStorage.rowTruthy).map CsvRow.callsign)).Nodup := by
    intro rows h2
    exact h2.sublist (List.Sublist.map _ (List.filter_sublist _))
  cases op with
  | add a =>
    show ((CSVStorage.load_data (CSVStorage.save_data
      (CSVStorage.upsertRow (CSVStorage.aircraft_to_row a) a.callsign
        (CSVStorage.load_data st)) st).2).map CsvRow.callsign).Nodup
    rw [csv_load_save]
    by_cases hw : st.writable
    · rw [if_pos hw]
      exact hfilter _
        (nodup_upsertRow (d := CSVStorage.aircraft_to_row a) (k := a.callsign) rfl h)
    · rw [if_neg hw]
      exact h
  | addMany l =>
    show ((CSVStorage.load_data (CSVStorage.add_multiple_aircraft l st).2).map
      CsvRow.callsign).Nodup
    rw [CSVStorage.add_multiple_aircraft]
    by_cases hle : l.isEmpty
    · rw [if_pos hle]
      exact h
    · rw [if_neg hle]
      show ((CSVStorage.load_data (CSVStorage.save_data
        (CSVStorage.addManyLoop l (CSVStorage.load_data st)
          (CSVStorage.buildIndex (CSVStorage.load_data st)) 0).1 st).2).map
            CsvRow.callsign).Nodup
      rw [csv_load_save]
      by_cases hw : st.writable
      · rw [if_pos hw]
        exact hfilter _ (addManyLoop_nodup l _ _ 0 h
          (buildIndex_sound _) (buildIndex_complete _))
      · rw [if_neg hw]
        exact h
  | del cs =>
    show ((CSVStorage.load_data (CSVStorage.delete_aircraft cs st).2).map
      CsvRow.callsign).Nodup
    simp only [CSVStorage.delete_aircraft]
    by_cases hlt : ((CSVStorage.load_data st).filter
        (fun r => !(r.callsign = cs))).length < (CSVStorage.load_data st).length
    · rw [if_pos hlt]
      show ((CSVStorage.load_data (CSVStorage.save_data _ st).2).map CsvRow.callsign).Nodup
      rw [csv_load_save]
      by_cases hw : st.writable
      · rw [if_pos hw]
        exact hfilter _ (h.sublist (List.Sublist.map _ (List.filter_sublist _)))
      · rw [if_neg hw]
        exact h
    · rw [if_neg hlt]
      exact h
  | clear =>
    show ((CSVStorage.load_data (CSVStorage.save_data [] st).2).map CsvRow.callsign).Nodup
    rw [csv_load_save]
    by_cases hw : st.writable
    · rw [if_pos hw]
      simp
    · rw [if_neg hw]
      exact h

theorem jsonRun_nodup_aux : ∀ (ops : List StoreOp) (st : JsonState),
    ((JSONStorage.load_data st).map AircraftDict.callsign).Nodup →
    ((JSONStorage.load_data (ops.foldl (fun s op => jsonApply op s) st)).map
      AircraftDict.callsign).Nodup := by
  intro ops
  induction ops with
  | nil => intro st h; exact h
  | cons op rest ih =>
    intro st h
    rw [List.foldl_cons]
    exact ih _ (jsonApply_nodup op st h)

theorem csvRun_nodup_aux : ∀ (ops : List StoreOp) (st : CsvState),
    ((CSVStorage.load_data st).map CsvRow.callsign).Nodup →
    ((CSVStorage.load_data (ops.foldl (fun s op => csvApply op s) st)).map
      CsvRow.callsign).Nodup := by
  intro ops
  induction ops with
  | nil => intro st h; exact h
  | cons op rest ih =>
    intro st h
    rw [List.foldl_cons]
    exact ih _ (csvApply_nodup op st h)

/-- C9: starting from an empty store, every sequence of public mutating
operations (add_aircraft, add_multiple_aircraft, delete_aircraft, clear)
preserves uniqueness of the callsign key: no two stored records share a
callsign, on both backends - enforced by the store logic alone. -/
theorem c9_callsign_unique (ops : List StoreOp) :
    ((JSONStorage.load_data (jsonRun ops)).map AircraftDict.callsign).Nodup ∧
    ((CSVStorage.load_data (csvRun ops)).map CsvRow.callsign).Nodup := by
  constructor
  · exact jsonRun_nodup_aux ops emptyJsonState (by simp [emptyJsonState, JSONStorage.load_data])
  · exact csvRun_nodup_aux ops emptyCsvState (by simp [emptyCsvState, CSVStorage.load_data])

end AircraftTracker
